/-
  Verification of the LogicLens solve pipeline.

  Shallow embedding of the backend of the repository: the response
  normalizer, the solve orchestrator, the HTTP route layer of the solve
  endpoints, and the browser-side history store. Outbound model calls are
  modelled by their observable outcomes (`CallResult`): the orchestrator is
  a pure function of the outcomes of the calls it makes, which it consumes
  in the order the code issues them. JavaScript values appearing in parsed
  JSON bodies are modelled by `JValue`; the builtin `JSON.parse` is
  modelled by a total recursive-descent parser over the JSON grammar, with
  numbers kept as their lexemes since no code under verification inspects
  numeric values beyond truthiness.
-/
import Mathlib

set_option linter.unusedVariables false

/-! ## JavaScript value model and a model of the builtin JSON.parse -/

/-- A JavaScript value as produced by `JSON.parse`; numbers are kept as
their source lexeme (the code never does arithmetic on them). -/
inductive JValue where
  | null
  | bool (b : Bool)
  | num (raw : String)
  | str (s : String)
  | arr (elems : List JValue)
  | obj (fields : List (String × JValue))

/-- JSON whitespace: space, tab, line feed, carriage return (by code
point). -/
def isJsonWs (c : Char) : Bool :=
  c.toNat == 32 || c.toNat == 9 || c.toNat == 10 || c.toNat == 13

/-- Skip JSON whitespace. -/
def skipWs (l : List Char) : List Char := l.dropWhile isJsonWs

/-- `pat` matched literally at the head of the input: the input after the
pattern, or nothing when the pattern is not a prefix. -/
def afterLiteral : List Char → List Char → Option (List Char)
  | [], l => some l
  | _ :: _, [] => none
  | p :: ps, c :: cs => if p == c then afterLiteral ps cs else none

/-- Hex digit value (0-9, a-f, A-F), using code points directly. -/
def hexVal (c : Char) : Option Nat :=
  let n := c.toNat
  if 48 ≤ n ∧ n ≤ 57 then some (n - 48)
  else if 97 ≤ n ∧ n ≤ 102 then some (n - 87)
  else if 65 ≤ n ∧ n ≤ 70 then some (n - 55)
  else none

/-- Four hex digits, as in a `\uXXXX` escape. -/
def hex4 (a b c d : Char) : Option Nat := do
  let va ← hexVal a
  let vb ← hexVal b
  let vc ← hexVal c
  let vd ← hexVal d
  pure (((va * 16 + vb) * 16 + vc) * 16 + vd)

/-- Prepend a decoded character to the pending string-parse result. -/
def consStr (c : Char) (o : Option (List Char × List Char)) : Option (List Char × List Char) :=
  o.map (fun p => (c :: p.1, p.2))

/-- Parse the body of a JSON string after the opening quote, returning the
decoded characters and the input after the closing quote. -/
def parseStrChars : List Char → Option (List Char × List Char)
  | [] => none
  | '"' :: rest => some ([], rest)
  | '\\' :: '"' :: r => consStr '"' (parseStrChars r)
  | '\\' :: '\\' :: r => consStr '\\' (parseStrChars r)
  | '\\' :: '/' :: r => consStr '/' (parseStrChars r)
  | '\\' :: 'b' :: r => consStr (Char.ofNat 8) (parseStrChars r)
  | '\\' :: 'f' :: r => consStr (Char.ofNat 12) (parseStrChars r)
  | '\\' :: 'n' :: r => consStr '\n' (parseStrChars r)
  | '\\' :: 'r' :: r => consStr '\r' (parseStrChars r)
  | '\\' :: 't' :: r => consStr '\t' (parseStrChars r)
  | '\\' :: 'u' :: w :: x :: y :: z :: r =>
    (match hex4 w x y z with
     | some n => consStr (Char.ofNat n) (parseStrChars r)
     | none => none)
  | '\\' :: _ => none
  | c :: rest => if c.toNat < 32 then none else consStr c (parseStrChars rest)

/-- Longest run of decimal digits. -/
def takeDigits (l : List Char) : List Char × List Char :=
  (l.takeWhile Char.isDigit, l.dropWhile Char.isDigit)

/-- Integer part of a JSON number: `0` or a nonzero-led digit run. -/
def parseIntPart : List Char → Option (List Char × List Char)
  | '0' :: r => some (['0'], r)
  | c :: r =>
    if c.isDigit then
      let (ds, r2) := takeDigits r
      some (c :: ds, r2)
    else none
  | [] => none

/-- Optional fractional part of a JSON number. -/
def parseFracPart : List Char → Option (List Char × List Char)
  | '.' :: r =>
    let (ds, r2) := takeDigits r
    if ds.isEmpty then none else some ('.' :: ds, r2)
  | l => some ([], l)

/-- Optional exponent part of a JSON number. -/
def parseExpPart : List Char → Option (List Char × List Char)
  | c :: r =>
    if c == 'e' || c == 'E' then
      match r with
      | s :: r2 =>
        if s == '+' || s == '-' then
          let (ds, r3) := takeDigits r2
          if ds.isEmpty then none else some (c :: s :: ds, r3)
        else
          let (ds, r3) := takeDigits r
          if ds.isEmpty then none else some (c :: ds, r3)
      | [] => none
    else some ([], c :: r)
  | [] => some ([], [])

/-- Parse a JSON number, returning its lexeme and the remaining input. -/
def parseNumber (l : List Char) : Option (String × List Char) := do
  let (sign, l1) := (match l with
    | '-' :: r => ((['-'] : List Char), r)
    | _ => ([], l))
  let (ip, l2) ← parseIntPart l1
  let (fp, l3) ← parseFracPart l2
  let (ep, l4) ← parseExpPart l3
  pure (String.mk (sign ++ ip ++ fp ++ ep), l4)

mutual

/-- Recursive-descent JSON value parser; `fuel` only bounds recursion depth
and is chosen large enough at the top entry (`jsonParse`). -/
def parseValue : Nat → List Char → Option (JValue × List Char)
  | 0, _ => none
  | fuel + 1, l =>
    match skipWs l with
    | [] => none
    | c :: r =>
      if c == '"' then
        (parseStrChars r).map (fun p => (.str (String.mk p.1), p.2))
      else if c == '\x7b' then
        match skipWs r with
        | '\x7d' :: r2 => some (.obj [], r2)
        | l2 => (parseMembers fuel l2).map (fun p => (.obj p.1, p.2))
      else if c == '[' then
        match skipWs r with
        | ']' :: r2 => some (.arr [], r2)
        | l2 => (parseElems fuel l2).map (fun p => (.arr p.1, p.2))
      else if c == '-' || c.isDigit then
        (parseNumber (c :: r)).map (fun p => (.num p.1, p.2))
      else
        match afterLiteral "null".data (c :: r) with
        | some r2 => some (.null, r2)
        | none =>
          match afterLiteral "true".data (c :: r) with
          | some r2 => some (.bool true, r2)
          | none =>
            match afterLiteral "false".data (c :: r) with
            | some r2 => some (.bool false, r2)
            | none => none

/-- One-or-more comma-separated array elements up to the closing bracket. -/
def parseElems : Nat → List Char → Option (List JValue × List Char)
  | 0, _ => none
  | fuel + 1, l =>
    match parseValue fuel l with
    | none => none
    | some (v, r) =>
      match skipWs r with
      | ',' :: r2 =>
        (match parseElems fuel r2 with
         | some (vs, r3) => some (v :: vs, r3)
         | none => none)
      | ']' :: r2 => some ([v], r2)
      | _ => none

/-- One-or-more comma-separated object members up to the closing brace. -/
def parseMembers : Nat → List Char → Option (List (String × JValue) × List Char)
  | 0, _ => none
  | fuel + 1, l =>
    match skipWs l with
    | '"' :: r =>
      (match parseStrChars r with
       | none => none
       | some (key, r1) =>
         match skipWs r1 with
         | ':' :: r2 =>
           (match parseValue fuel r2 with
            | none => none
            | some (v, r3) =>
              match skipWs r3 with
              | ',' :: r4 =>
                (match parseMembers fuel r4 with
                 | some (ms, r5) => some ((String.mk key, v) :: ms, r5)
                 | none => none)
              | '\x7d' :: r4 => some ([(String.mk key, v)], r4)
              | _ => none)
         | _ => none)
    | _ => none

end

/-- Model of the builtin `JSON.parse`: parse a complete document, requiring
all input (up to trailing whitespace) to be consumed. -/
def jsonParse (s : String) : Option JValue :=
  match parseValue (2 * s.data.length + 4) s.data with
  | some (v, rest) => if (skipWs rest).isEmpty then some v else none
  | none => none

/-- Property access `v.key` as used on a `JSON.parse` result: `none` models
the JavaScript `undefined`. Later duplicate keys win, as in JavaScript. -/
def getProp (v : JValue) (key : String) : Option JValue :=
  match v with
  | .obj fields => (fields.reverse.find? (fun f => f.1 == key)).map (fun f => f.2)
  | _ => none

/-- Whether all mantissa digits of a number lexeme are zero, i.e. the
number's value is zero. -/
def numIsZero (raw : String) : Bool :=
  (raw.data.takeWhile (fun c => !(c == 'e') && !(c == 'E'))).all
    (fun c => !c.isDigit || c == '0')

/-- JavaScript truthiness of a parsed JSON value. -/
def jsTruthy : JValue → Bool
  | .null => false
  | .bool b => b
  | .num raw => !numIsZero raw
  | .str s => !(s == "")
  | .arr _ => true
  | .obj _ => true

/-- The JavaScript `a || b` over an optionally-present property (`none`
models `undefined`, which is falsy). -/
def jsOr (v : Option JValue) (d : JValue) : JValue :=
  match v with
  | some x => if jsTruthy x then x else d
  | none => d

/-! ## The response normalizer (`parseResponse` in the inference service) -/

/-- The solution shape assembled by `parseResponse`: all four fields are
always assigned; their values are JavaScript values coming either from the
parsed model output or from the fallback strings. -/
structure Solution where
  previewText : JValue
  answer : JValue
  steps : List JValue
  explanation : JValue

/-- Model of `text.match(/\x7b[\s\S]*\x7d/)`: the regex matches from the
first opening brace to the last closing brace of the whole text (leftmost
start, greedy), and only when a closing brace occurs after the first
opening brace. -/
def extractBraces (text : String) : Option String :=
  let afterOpen := text.data.dropWhile (fun c => !(c == '\x7b'))
  let upToClose := (afterOpen.reverse.dropWhile (fun c => !(c == '\x7d'))).reverse
  if upToClose.isEmpty then none else some (String.mk upToClose)

/-- `text.split('\n')` on the character list: split at every newline, so a
text of n newlines yields n+1 (possibly empty) lines. -/
def splitLinesChars : List Char → List (List Char)
  | [] => [[]]
  | c :: r =>
    if c == '\n' then [] :: splitLinesChars r
    else
      match splitLinesChars r with
      | l :: ls => (c :: l) :: ls
      | [] => [[c]]

/-- JavaScript `String.prototype.trim`: strip whitespace from both ends. -/
def jsTrim (l : List Char) : List Char :=
  ((l.dropWhile Char.isWhitespace).reverse.dropWhile Char.isWhitespace).reverse

/-- `text.split('\n').filter(l => l.trim().length > 0)`: the lines of the
text that are not whitespace-only, kept untrimmed and in order. -/
def nonEmptyLines (text : String) : List String :=
  ((splitLinesChars text.data).filter (fun l => 0 < (jsTrim l).length)).map String.mk

/-- The `parseResponse(text, fallbackPreview = '')` normalizer: returns
nothing for empty text; otherwise extracts the brace-delimited region,
parses it as JSON, and maps it onto the solution shape with per-field
fallbacks; on no region or a parse failure returns the all-fallback
solution. -/
def parseResponse (text : String) (fallbackPreview : String := "") : Option Solution :=
  if text = "" then none
  else
    let fallback : Solution := {
      previewText := .str (if fallbackPreview = "" then "Problem" else fallbackPreview)
      answer := .str "See explanation below"
      steps := (nonEmptyLines text).map JValue.str
      explanation := .str text }
    match extractBraces text with
    | some jsonText =>
      match jsonParse jsonText with
      | some parsed =>
        some {
          previewText := jsOr (getProp parsed "previewText")
            (.str (if fallbackPreview = "" then "Problem" else fallbackPreview))
          answer := jsOr (getProp parsed "answer") fallback.answer
          steps := (match getProp parsed "steps" with
            | some (.arr l) => l
            | _ => fallback.steps)
          explanation := jsOr (getProp parsed "explanation") fallback.explanation }
      | none => some fallback
    | none => some fallback

/-! ## The solve orchestrator (`solveFromImage` / `solveFromText`)

An outbound `chatCompletion` call is modelled by its observable outcome:
either the extracted text content of the first choice (which is `''` when
the response carries no content) or a thrown error's message. -/

/-- Outcome of one `chatCompletion` call. -/
inductive CallResult where
  | ok (content : String)
  | error (msg : String)

/-- The vision loop of `tryVisionSolve`: one outcome per configured vision
model, consumed in order; a successful call whose content is longer than
10 characters is normalized and returned, any other outcome moves on to
the next model; exhaustion yields nothing. -/
def tryVisionSolve (attempts : List CallResult) : Option Solution :=
  match attempts with
  | [] => none
  | .ok content :: rest =>
    if content.length > 10 then parseResponse content else tryVisionSolve rest
  | .error _ :: rest => tryVisionSolve rest

/-- The canned prompt `solveFromImage` sends to the text model when every
vision model has failed. -/
def unreadableImagePromptText : String :=
  "The user uploaded an image of a math/science problem but the vision models could not process it. Generate a helpful response explaining that the image could not be read and suggest they try: 1) a clearer photo, 2) better lighting, 3) typing the problem instead."

/-- `textOnlySolve(problemText)`: one text-model call whose content is
normalized with the problem text as fallback preview; a thrown call error
propagates. -/
def textOnlySolve (call : CallResult) (problemText : String) : Except String (Option Solution) :=
  match call with
  | .ok content => .ok (parseResponse content problemText)
  | .error msg => .error msg

/-- The terminal error message thrown when every stage is exhausted. -/
def allModelsUnavailableMsg : String :=
  "All AI models are currently unavailable. Please try again in a few minutes."

/-- `solveFromImage`: first the vision loop; on total vision failure one
text-model call with the canned unreadable-image prompt, whose successful
non-null result has all four fields overwritten with the fixed guidance
text; anything else (a thrown fallback call, or a null normalizer result)
ends in the terminal error. -/
def solveFromImage (visionAttempts : List CallResult) (fallbackCall : CallResult) :
    Except String Solution :=
  match tryVisionSolve visionAttempts with
  | some sol => .ok sol
  | none =>
    match textOnlySolve fallbackCall unreadableImagePromptText with
    | .ok (some r) => .ok { r with
        previewText := .str "Image could not be read"
        answer := .str "Could not read image"
        steps := [
          .str "The AI vision models were unable to process this image.",
          .str "Try taking a clearer, well-lit photo of the problem.",
          .str "Make sure the text/equations are clearly visible.",
          .str "Alternatively, you can type the problem directly."]
        explanation := .str "The free-tier AI vision models may be temporarily unavailable or the image quality was insufficient. Please try again or use the text input option." }
    | _ => .error allModelsUnavailableMsg

/-- `solveFromText(text)`: the text-only entry point, which just runs
`textOnlySolve`. -/
def solveFromText (call : CallResult) (text : String) : Except String (Option Solution) :=
  textOnlySolve call text

/-! ## The HTTP route layer (`POST /solve` and `POST /solve-text`)

A request body field is an `Option JValue` (`none` when the field is
absent, mirroring `undefined`); the configured credential is a `String`
(`""` when the environment variable is absent or empty — both are falsy in
the guard the routes use). A route's result is a status code and a JSON
body. -/

/-- A JSON response body of the solve routes: an error object
`\x7b error, code \x7d`, a full solution object, or JSON `null` (what
`res.json(x)` sends when `x` is `null`). -/
inductive RespBody where
  | errorBody (error : String) (code : String)
  | solutionBody (sol : Solution)
  | nullBody

/-- Maximum allowed decoded image size (~10MB). -/
def MAX_IMAGE_SIZE_BYTES : Nat := 10 * 1024 * 1024

/-- A word character of the regex class `\w`. -/
def isWordChar (c : Char) : Bool := c.isAlpha || c.isDigit || c == '_'

/-- Model of `image.replace(/^data:image\/\w+;base64,/, '')`: strip the
data-URI header when it is present, otherwise leave the string unchanged. -/
def stripDataUriHeader (l : List Char) : List Char :=
  match afterLiteral "data:image/".data l with
  | none => l
  | some rest1 =>
    let w := rest1.takeWhile isWordChar
    let rest2 := rest1.dropWhile isWordChar
    if w.isEmpty then l
    else
      match afterLiteral ";base64,".data rest2 with
      | none => l
      | some rest3 => rest3

/-- Outcome of a route's validation phase: an early error response, or
proceed into the orchestrator with the validated payload. -/
inductive RouteDecision where
  | reject (status : Nat) (body : RespBody)
  | proceed (payload : String)

/-- The validation phase of `POST /solve`, in the code's order: credential
guard, `!image` guard, `typeof image !== 'string'` guard, then the size
estimate `cleanLength * 3 / 4 > 10MiB` (stated integrally as
`cleanLength * 3 > 4 * 10MiB`, exact since the float arithmetic involved
is exact at these magnitudes). The 413 message interpolates the computed
megabyte size; the decimal formatting of that number is not modelled, no
claim depends on the message text. -/
def validateSolve (hfApiKey : String) (image : Option JValue) : RouteDecision :=
  if hfApiKey = "" ∨ hfApiKey = "hf_your_key_here" then
    .reject 503 (.errorBody "Server is not configured. The HuggingFace API key is missing." "MISSING_API_KEY")
  else
    match image with
    | none => .reject 400 (.errorBody "No image provided. Please send a base64-encoded image in the \"image\" field." "NO_IMAGE")
    | some v =>
      if !jsTruthy v then
        .reject 400 (.errorBody "No image provided. Please send a base64-encoded image in the \"image\" field." "NO_IMAGE")
      else
        match v with
        | .str s =>
          if MAX_IMAGE_SIZE_BYTES * 4 < (stripDataUriHeader s.data).length * 3 then
            .reject 413 (.errorBody ("Image too large ("
              ++ toString ((stripDataUriHeader s.data).length * 3 / 4)
              ++ " bytes, formatting not modelled). Maximum is 10MB.") "IMAGE_TOO_LARGE")
          else .proceed s
        | _ => .reject 400 (.errorBody "Invalid image format. Expected a base64 string." "INVALID_FORMAT")

/-- `POST /solve`: validation, then the orchestrator; a resolved solution
is sent as a 200 JSON body, a thrown orchestrator error becomes a 500 with
`error.message || <default>` and code `PROCESSING_ERROR`. -/
def solveRoute (hfApiKey : String) (image : Option JValue)
    (visionAttempts : List CallResult) (fallbackCall : CallResult) : Nat × RespBody :=
  match validateSolve hfApiKey image with
  | .reject status body => (status, body)
  | .proceed _ =>
    match solveFromImage visionAttempts fallbackCall with
    | .ok sol => (200, .solutionBody sol)
    | .error msg =>
      (500, .errorBody
        (if msg = "" then "An unexpected error occurred while processing the image." else msg)
        "PROCESSING_ERROR")

/-- The validation phase of `POST /solve-text`: credential guard, then
`!text || typeof text !== 'string' || text.trim().length === 0`; the
validated payload is the trimmed text. -/
def validateSolveText (hfApiKey : String) (text : Option JValue) : RouteDecision :=
  if hfApiKey = "" ∨ hfApiKey = "hf_your_key_here" then
    .reject 503 (.errorBody "API key not configured" "MISSING_API_KEY")
  else
    match text with
    | some (.str s) =>
      if s ≠ "" ∧ 0 < (jsTrim s.data).length then .proceed (String.mk (jsTrim s.data))
      else .reject 400 (.errorBody "No problem text provided." "NO_TEXT")
    | _ => .reject 400 (.errorBody "No problem text provided." "NO_TEXT")

/-- `POST /solve-text`: validation, then `solveFromText(text.trim())`; the
resolved value is sent as the 200 JSON body (`null` when the normalizer
returned nothing), a thrown error becomes a 500 with the error message and
code `PROCESSING_ERROR`. -/
def solveTextRoute (hfApiKey : String) (text : Option JValue) (call : CallResult) :
    Nat × RespBody :=
  match validateSolveText hfApiKey text with
  | .reject status body => (status, body)
  | .proceed t =>
    match solveFromText call t with
    | .ok (some sol) => (200, .solutionBody sol)
    | .ok none => (200, .nullBody)
    | .error msg => (500, .errorBody msg "PROCESSING_ERROR")

/-- The `code` field of a response body, when it is an error body. -/
def respCode : RespBody → Option String
  | .errorBody _ c => some c
  | _ => none

/-- Whether a response body is a full four-field solution object. -/
def bodyIsFullSolution : RespBody → Bool
  | .solutionBody _ => true
  | _ => false

/-! ## The browser history store (`saveToHistory` in `app.js`) -/

/-- A persisted history entry: the shown solution's fields plus the
formatted date and the numeric timestamp added by `saveToHistory`. -/
structure HistoryItem where
  solution : Solution
  date : String
  timestamp : Nat

/-- `saveToHistory(solution)` acting on the persisted list: build the
history item, `unshift` it to the front, and when the length then exceeds
50, `pop` the last entry. -/
def saveToHistory (solution : Solution) (date : String) (timestamp : Nat)
    (history : List HistoryItem) : List HistoryItem :=
  let history' := (⟨solution, date, timestamp⟩ : HistoryItem) :: history
  if history'.length > 50 then history'.dropLast else history'

/-- Save a sequence of solutions (with their dates and timestamps) in
order, each via `saveToHistory`. -/
def saveAll (items : List (Solution × String × Nat)) (history : List HistoryItem) :
    List HistoryItem :=
  items.foldl (fun h i => saveToHistory i.1 i.2.1 i.2.2 h) history

/-- The history item a save of the given (solution, date, timestamp)
triple builds. -/
def mkHistoryItem (i : Solution × String × Nat) : HistoryItem :=
  ⟨i.1, i.2.1, i.2.2⟩

/-! ## Concrete inputs used by witnesses and counterexamples -/

/-- A well-formed solution JSON object (the spec's own end-to-end example). -/
def sampleSolutionJson : String :=
  "\x7b\"previewText\":\"2+2\",\"answer\":\"4\",\"steps\":[\"a\",\"b\"],\"explanation\":\"x\"\x7d"

/-- A model reply embedding `sampleSolutionJson` in chatter. -/
def sampleVisionReply : String := "Sure! " ++ sampleSolutionJson

/-- A model reply that contains the well-formed `sampleSolutionJson` but
also a second brace block after it, so the greedy first-to-last brace
match grabs an unparseable region. -/
def sampleTwoBlockReply : String := sampleVisionReply ++ " \x7b\x7d"

/-- A model reply with no brace characters at all. -/
def sampleProseReply : String := "First, add 2 and 2.\n\nThe answer is 4."

/-- A base64 payload of 14,000,000 characters, whose estimated decoded
size (3/4 of that) exceeds 10 MiB. -/
def oversizedImage : String := String.mk (List.replicate 14000000 'A')

/-- A concrete solution value for history witnesses. -/
def sampleSolution : Solution := ⟨.str "2+2", .str "4", [.str "a", .str "b"], .str "x"⟩

/-! ## Helper lemmas -/

theorem dropWhile_eq_cons_head_false {α : Type} {p : α → Bool} :
    ∀ {l : List α} {c : α} {r : List α}, List.dropWhile p l = c :: r → p c = false := by
  intro l
  induction l with
  | nil => intro c r h; simp [List.dropWhile] at h
  | cons a as ih =>
    intro c r h
    rw [List.dropWhile_cons] at h
    by_cases hp : p a
    · rw [if_pos hp] at h; exact ih h
    · rw [if_neg hp] at h
      cases h
      simpa using hp

/-- A successful brace extraction exhibits an opening brace followed,
possibly much later, by a closing brace: the text splits around them. -/
theorem extractBraces_eq_some_decomp {text : String} {s : String}
    (h : extractBraces text = some s) :
    ∃ pre mid post, text.data = pre ++ '\x7b' :: (mid ++ '\x7d' :: post) := by
  unfold extractBraces at h
  set A : List Char := List.dropWhile (fun c => !(c == '\x7b')) text.data with hA
  set D : List Char := List.dropWhile (fun c => !(c == '\x7d')) A.reverse with hD
  set T : List Char := List.takeWhile (fun c => !(c == '\x7d')) A.reverse with hT
  by_cases hne : D.reverse.isEmpty
  · rw [if_pos hne] at h; cases h
  · have hDne : D ≠ [] := by
      intro h0
      rw [h0] at hne
      simp at hne
    obtain ⟨c, D', hDc⟩ := List.exists_cons_of_ne_nil hDne
    have hc : c = '\x7d' := by
      have h1 : List.dropWhile (fun c => !(c == '\x7d')) A.reverse = c :: D' := by
        rw [← hD]; exact hDc
      have := dropWhile_eq_cons_head_false h1
      simpa using this
    have hA2 : A = D.reverse ++ T.reverse := by
      have h1 : T ++ D = A.reverse := by
        rw [hT, hD]; exact List.takeWhile_append_dropWhile _ _
      calc A = A.reverse.reverse := by rw [List.reverse_reverse]
      _ = (T ++ D).reverse := by rw [h1]
      _ = D.reverse ++ T.reverse := by rw [List.reverse_append]
    have hAne : A ≠ [] := by
      intro h0
      rw [h0] at hD
      simp at hD
      exact hDne hD
    obtain ⟨a, A', hAc⟩ := List.exists_cons_of_ne_nil hAne
    have ha : a = '\x7b' := by
      have h1 : List.dropWhile (fun c => !(c == '\x7b')) text.data = a :: A' := by
        rw [← hA]; exact hAc
      have := dropWhile_eq_cons_head_false h1
      simpa using this
    have hsplit : text.data = List.takeWhile (fun c => !(c == '\x7b')) text.data ++ A := by
      conv_lhs => rw [← List.takeWhile_append_dropWhile (p := fun c => !(c == '\x7b')) (l := text.data)]
    rw [hDc, hc] at hA2
    simp only [List.reverse_cons] at hA2
    rw [hAc, ha] at hA2
    rcases hrev : D'.reverse with _ | ⟨b, M⟩
    · rw [hrev] at hA2
      simp at hA2
    · rw [hrev, List.append_assoc, List.cons_append] at hA2
      have hb : '\x7b' = b ∧ A' = M ++ ('\x7d' :: T.reverse) := by
        have h1 := congrArg List.head? hA2
        have h2 := congrArg List.tail hA2
        simp only [List.head?_cons, Option.some.injEq] at h1
        simp only [List.tail_cons] at h2
        exact ⟨h1, h2⟩
      refine ⟨List.takeWhile (fun c => !(c == '\x7b')) text.data, M, T.reverse, ?_⟩
      rw [hAc, ha, hb.2] at hsplit
      conv_lhs => rw [hsplit]

/-- A text without an opening brace admits no brace decomposition. -/
theorem no_open_brace_no_decomp {text : String} (h : '\x7b' ∉ text.data) :
    ∀ pre mid post, text.data ≠ pre ++ '\x7b' :: (mid ++ '\x7d' :: post) := by
  intro pre mid post heq
  apply h
  rw [heq]
  simp

/-- The normalizer returns a value exactly on nonempty input (shared by
several claims). -/
theorem parseResponse_none_iff (text fb : String) :
    parseResponse text fb = none ↔ text = "" := by
  by_cases h : text = ""
  · subst h; simp [parseResponse]
  · simp only [parseResponse, if_neg h]
    cases hex : extractBraces text with
    | none => simp [hex, h]
    | some s =>
      cases hp : jsonParse s with
      | none => simp [hex, hp, h]
      | some parsed => simp [hex, hp, h]

/-! ## Claims -/

/-- C7: the normalizer never fails for any string input — it is a total
function whose worst case is the all-fallback object — and it returns
nothing exactly when the input text itself is empty. -/
theorem C7_normalizer_total_none_iff_empty (text fb : String) :
    parseResponse text fb = none ↔ text = "" :=
  parseResponse_none_iff text fb

/-- C7 applied at concrete inputs: empty text yields nothing, nonempty
text yields a solution. -/
theorem C7_witness :
    parseResponse "" "" = none ∧ parseResponse "2+2?" "" ≠ none :=
  ⟨(C7_normalizer_total_none_iff_empty "" "").mpr rfl,
   fun h => absurd ((C7_normalizer_total_none_iff_empty "2+2?" "").mp h) (by decide)⟩

/-- C8 (amended: the raw text must be nonempty — for empty text the
normalizer returns nothing): for every nonempty raw text with no
brace-delimited substring, the normalizer returns a Solution whose steps
equal the non-empty lines of that text in their original order and whose
explanation equals the full original text. -/
theorem C8_no_json_fallback_shape (text fb : String)
    (hne : text ≠ "")
    (hnob : ∀ pre mid post, text.data ≠ pre ++ '\x7b' :: (mid ++ '\x7d' :: post)) :
    (parseResponse text fb).map Solution.steps =
      some ((nonEmptyLines text).map JValue.str) ∧
    (parseResponse text fb).map Solution.explanation = some (.str text) := by
  have hex : extractBraces text = none := by
    cases hex2 : extractBraces text with
    | none => rfl
    | some s =>
      obtain ⟨pre, mid, post, hd⟩ := extractBraces_eq_some_decomp hex2
      exact absurd hd (hnob pre mid post)
  have hval : parseResponse text fb = some {
      previewText := .str (if fb = "" then "Problem" else fb)
      answer := .str "See explanation below"
      steps := (nonEmptyLines text).map JValue.str
      explanation := .str text } := by
    simp only [parseResponse, if_neg hne, hex]
  rw [hval]
  exact ⟨rfl, rfl⟩

/-- C8 counterexample: the empty text has no brace-delimited substring
(it has no characters at all), yet the normalizer returns nothing rather
than a Solution with the announced steps and explanation. -/
theorem C8_counterexample_empty_text :
    parseResponse "" "" = none ∧ extractBraces "" = none :=
  ⟨rfl, rfl⟩

/-- C8 applied at a concrete brace-free reply. -/
theorem C8_witness :
    (parseResponse sampleProseReply "").map Solution.steps =
      some ((nonEmptyLines sampleProseReply).map JValue.str) ∧
    (parseResponse sampleProseReply "").map Solution.explanation =
      some (.str sampleProseReply) :=
  C8_no_json_fallback_shape sampleProseReply "" (by decide)
    (no_open_brace_no_decomp (by decide))

/-- C2 (amended: the well-formed object must be the region the greedy
first-brace-to-last-brace match extracts, and the four fields must be
truthy — a nonempty previewText, answer and explanation and a `steps`
array): then the normalizer returns exactly those four values unchanged,
and a vision reply carrying them (of more than 10 characters) makes the
orchestrator return that parsed object verbatim for every fallback-stage
outcome, i.e. without the fallback stage being consulted. -/
theorem C2_wellformed_passthrough
    (text s : String) (parsed : JValue) (p a e : String) (l : List JValue)
    (hex : extractBraces text = some s)
    (hjson : jsonParse s = some parsed)
    (hp : getProp parsed "previewText" = some (.str p)) (hpne : p ≠ "")
    (ha : getProp parsed "answer" = some (.str a)) (hane : a ≠ "")
    (hs : getProp parsed "steps" = some (.arr l))
    (he : getProp parsed "explanation" = some (.str e)) (hene : e ≠ "") :
    (∀ fb, parseResponse text fb = some ⟨.str p, .str a, l, .str e⟩) ∧
    (10 < text.length →
      ∀ fc, solveFromImage [.ok text] fc = .ok ⟨.str p, .str a, l, .str e⟩) := by
  have hne : text ≠ "" := by
    intro h0
    rw [h0] at hex
    rw [(rfl : extractBraces "" = none)] at hex
    cases hex
  have t1 : jsTruthy (.str p) = true := by simp [jsTruthy, hpne]
  have t2 : jsTruthy (.str a) = true := by simp [jsTruthy, hane]
  have t3 : jsTruthy (.str e) = true := by simp [jsTruthy, hene]
  have hmain : ∀ fb, parseResponse text fb = some ⟨.str p, .str a, l, .str e⟩ := by
    intro fb
    simp only [parseResponse, if_neg hne, hex, hjson, hp, ha, hs, he, jsOr, t1, t2, t3,
      if_true]
  refine ⟨hmain, fun hlen fc => ?_⟩
  have hv : tryVisionSolve [.ok text] = some ⟨.str p, .str a, l, .str e⟩ := by
    simp only [tryVisionSolve, if_pos hlen]
    exact hmain ""
  simp only [solveFromImage, hv]

/-- C2 counterexample: a raw text that contains the well-formed solution
object `sampleSolutionJson` (with valid, nonempty previewText, answer,
steps, explanation) followed by a second brace block; the greedy match
grabs from the first to the last brace, the parse of that region fails,
and the normalizer returns the fallback values rather than the embedded
object's values — previewText is "Problem", not "2+2". -/
theorem C2_counterexample_two_blocks :
    sampleTwoBlockReply = "Sure! " ++ sampleSolutionJson ++ " \x7b\x7d" ∧
    jsonParse sampleSolutionJson = some (.obj [
      ("previewText", .str "2+2"), ("answer", .str "4"),
      ("steps", .arr [.str "a", .str "b"]), ("explanation", .str "x")]) ∧
    parseResponse sampleTwoBlockReply "" = some ⟨.str "Problem",
      .str "See explanation below", [.str sampleTwoBlockReply],
      .str sampleTwoBlockReply⟩ ∧
    ("Problem" : String) ≠ "2+2" :=
  ⟨rfl, rfl, rfl, by decide⟩

/-- C2 applied at the spec's own end-to-end example reply. -/
theorem C2_witness :
    parseResponse sampleVisionReply "" =
      some ⟨.str "2+2", .str "4", [.str "a", .str "b"], .str "x"⟩ ∧
    solveFromImage [.ok sampleVisionReply] (.error "provider down") =
      .ok ⟨.str "2+2", .str "4", [.str "a", .str "b"], .str "x"⟩ := by
  have h := C2_wellformed_passthrough sampleVisionReply sampleSolutionJson
    (.obj [("previewText", .str "2+2"), ("answer", .str "4"),
      ("steps", .arr [.str "a", .str "b"]), ("explanation", .str "x")])
    "2+2" "4" "x" [.str "a", .str "b"]
    rfl rfl rfl (by decide) rfl (by decide) rfl rfl (by decide)
  exact ⟨h.1 "", h.2 (by decide) _⟩

/-- When every configured vision model's call fails, the vision loop
yields nothing. -/
theorem tryVisionSolve_all_errors :
    ∀ {attempts : List CallResult}, (∀ r ∈ attempts, ∃ m, r = .error m) →
      tryVisionSolve attempts = none := by
  intro attempts
  induction attempts with
  | nil => intro _; rfl
  | cons r rest ih =>
    intro h
    obtain ⟨m, hm⟩ := h r (List.mem_cons_self r rest)
    subst hm
    simp only [tryVisionSolve]
    exact ih (fun x hx => h x (List.mem_cons_of_mem _ hx))

/-- The only error `solveFromImage` ever throws is the terminal one. -/
theorem solveFromImage_error_eq {attempts : List CallResult} {fc : CallResult} {msg : String}
    (h : solveFromImage attempts fc = .error msg) : msg = allModelsUnavailableMsg := by
  unfold solveFromImage at h
  cases h1 : tryVisionSolve attempts with
  | some sol => rw [h1] at h; cases h
  | none =>
    rw [h1] at h
    cases h2 : textOnlySolve fc unreadableImagePromptText with
    | ok o =>
      rw [h2] at h
      cases o with
      | some r => cases h
      | none => injection h with h3; exact h3.symm
    | error m =>
      rw [h2] at h
      injection h with h3
      exact h3.symm

/-- A rejection of the `/solve` validation carries status 503, 400 or 413. -/
theorem validateSolve_reject_status {key : String} {image : Option JValue} {st : Nat}
    {b : RespBody} (h : validateSolve key image = .reject st b) :
    st = 503 ∨ st = 400 ∨ st = 413 := by
  unfold validateSolve at h
  split at h
  · cases h; exact Or.inl rfl
  · split at h
    · cases h; exact Or.inr (Or.inl rfl)
    · split at h
      · cases h; exact Or.inr (Or.inl rfl)
      · split at h
        · split at h
          · cases h; exact Or.inr (Or.inr rfl)
          · cases h
        · cases h; exact Or.inr (Or.inl rfl)

/-- A rejection of the `/solve-text` validation carries status 503 or 400. -/
theorem validateSolveText_reject_status {key : String} {text : Option JValue} {st : Nat}
    {b : RespBody} (h : validateSolveText key text = .reject st b) :
    st = 503 ∨ st = 400 := by
  unfold validateSolveText at h
  split at h
  · cases h; exact Or.inl rfl
  · split at h
    · split at h
      · cases h
      · cases h; exact Or.inr rfl
    · cases h; exact Or.inr rfl

/-- C3 (amended: the successful fallback call must return nonempty
content — on empty content the orchestrator throws the terminal error
instead): whenever every vision attempt fails and the text-model fallback
call succeeds with nonempty content, `solveFromImage` returns a Solution
whose previewText is "Image could not be read" and whose steps are the
fixed 4-line guidance list (with the fixed answer and explanation),
regardless of that content. -/
theorem C3_fallback_fixed_guidance (attempts : List CallResult) (content : String)
    (hall : ∀ r ∈ attempts, ∃ m, r = .error m) (hc : content ≠ "") :
    solveFromImage attempts (.ok content) = .ok ⟨
      .str "Image could not be read",
      .str "Could not read image",
      [.str "The AI vision models were unable to process this image.",
       .str "Try taking a clearer, well-lit photo of the problem.",
       .str "Make sure the text/equations are clearly visible.",
       .str "Alternatively, you can type the problem directly."],
      .str "The free-tier AI vision models may be temporarily unavailable or the image quality was insufficient. Please try again or use the text input option."⟩ := by
  have hv := tryVisionSolve_all_errors hall
  have hpr : ∃ sol, parseResponse content unreadableImagePromptText = some sol := by
    cases hx : parseResponse content unreadableImagePromptText with
    | none => exact absurd ((parseResponse_none_iff _ _).mp hx) hc
    | some s => exact ⟨s, rfl⟩
  obtain ⟨sol, hsol⟩ := hpr
  simp only [solveFromImage, hv, textOnlySolve, hsol]

/-- C3 counterexample: the single vision attempt fails and the fallback
call succeeds — but with empty content, so the orchestrator throws the
terminal error instead of returning the fixed-guidance Solution. -/
theorem C3_counterexample_empty_fallback_content :
    solveFromImage
      [.error "Request to Qwen/Qwen2.5-VL-7B-Instruct timed out (20s). Try again."]
      (.ok "") = .error allModelsUnavailableMsg :=
  rfl

/-- C3 applied at a concrete failing vision attempt and a concrete
fallback reply. -/
theorem C3_witness :
    solveFromImage [.error "HF API 503: busy"] (.ok "I cannot see any image here.") = .ok ⟨
      .str "Image could not be read",
      .str "Could not read image",
      [.str "The AI vision models were unable to process this image.",
       .str "Try taking a clearer, well-lit photo of the problem.",
       .str "Make sure the text/equations are clearly visible.",
       .str "Alternatively, you can type the problem directly."],
      .str "The free-tier AI vision models may be temporarily unavailable or the image quality was insufficient. Please try again or use the text input option."⟩ :=
  C3_fallback_fixed_guidance _ _
    (fun r hr => by rw [List.mem_singleton] at hr; exact ⟨"HF API 503: busy", hr⟩)
    (by decide)

/-- C4: when every vision attempt fails and the text fallback also fails,
`solveFromImage` throws the terminal error, whose message states "All AI
models are currently unavailable."; and the `/solve` route maps any
orchestrator error to a 500 response carrying the error message and code
PROCESSING_ERROR. -/
theorem C4_terminal_error_and_route_mapping :
    (∀ (attempts : List CallResult) (fmsg : String),
      (∀ r ∈ attempts, ∃ m, r = .error m) →
      solveFromImage attempts (.error fmsg) =
        .error ("All AI models are currently unavailable." ++
          " Please try again in a few minutes.")) ∧
    (∀ (key : String) (image : Option JValue) (attempts : List CallResult)
        (fc : CallResult) (msg payload : String),
      validateSolve key image = .proceed payload →
      solveFromImage attempts fc = .error msg →
      solveRoute key image attempts fc = (500, .errorBody msg "PROCESSING_ERROR")) := by
  constructor
  · intro attempts fmsg hall
    have hv := tryVisionSolve_all_errors hall
    simp only [solveFromImage, hv, textOnlySolve]
    rfl
  · intro key image attempts fc msg payload hval herr
    have hmsg := solveFromImage_error_eq herr
    have hne : msg ≠ "" := by rw [hmsg]; decide
    simp only [solveRoute, hval, herr, if_neg hne]

/-- C4 applied at one failing vision attempt and a failing fallback,
through a request that passes validation. -/
theorem C4_witness :
    solveFromImage [.error "HF API 503: busy"] (.error "HF API 500: down") =
      .error ("All AI models are currently unavailable." ++
        " Please try again in a few minutes.") ∧
    solveRoute "hf_demo_key" (some (.str "imagebase64data")) [.error "HF API 503: busy"]
      (.error "HF API 500: down") =
      (500, .errorBody allModelsUnavailableMsg "PROCESSING_ERROR") := by
  have h1 := C4_terminal_error_and_route_mapping.1 [.error "HF API 503: busy"] "HF API 500: down"
    (fun r hr => by rw [List.mem_singleton] at hr; exact ⟨"HF API 503: busy", hr⟩)
  refine ⟨h1, ?_⟩
  exact C4_terminal_error_and_route_mapping.2 "hf_demo_key" (some (.str "imagebase64data"))
    _ _ _ "imagebase64data" rfl h1

/-- C5 (amended: the code's first guard is JavaScript truthiness, so a
present-but-falsy `image` — `null`, `false`, `0` or the empty string —
also yields NO_IMAGE; only a present, truthy, non-string value yields
INVALID_FORMAT): with a configured credential, an absent or falsy image
field gets 400/NO_IMAGE and a truthy non-string image gets
400/INVALID_FORMAT, in both cases for every orchestrator behaviour, i.e.
without the orchestrator being consulted. -/
theorem C5_no_image_and_invalid_format (key : String) (v : JValue)
    (attempts : List CallResult) (fc : CallResult)
    (hkey : ¬(key = "" ∨ key = "hf_your_key_here")) :
    solveRoute key none attempts fc = (400, .errorBody
      "No image provided. Please send a base64-encoded image in the \"image\" field."
      "NO_IMAGE") ∧
    (jsTruthy v = false → solveRoute key (some v) attempts fc = (400, .errorBody
      "No image provided. Please send a base64-encoded image in the \"image\" field."
      "NO_IMAGE")) ∧
    (jsTruthy v = true → (∀ t, v ≠ .str t) → solveRoute key (some v) attempts fc =
      (400, .errorBody "Invalid image format. Expected a base64 string."
        "INVALID_FORMAT")) := by
  refine ⟨?_, fun hf => ?_, fun ht hns => ?_⟩
  · simp [solveRoute, validateSolve, if_neg hkey]
  · simp [solveRoute, validateSolve, if_neg hkey, hf]
  · cases v with
    | str t => exact absurd rfl (hns t)
    | null => simp [jsTruthy] at ht
    | bool b => simp [solveRoute, validateSolve, if_neg hkey, ht]
    | num raw => simp [solveRoute, validateSolve, if_neg hkey, ht]
    | arr es => simp [solveRoute, validateSolve, if_neg hkey, ht]
    | obj fs => simp [solveRoute, validateSolve, if_neg hkey, ht]

/-- C5 counterexample: `image: false` is present and not a string, but the
route answers NO_IMAGE, not the INVALID_FORMAT the claim announces,
because `!image` is checked before the typeof guard. -/
theorem C5_counterexample_falsy_nonstring :
    solveRoute "hf_demo_key" (some (.bool false)) [] (.error "x") =
      (400, .errorBody
        "No image provided. Please send a base64-encoded image in the \"image\" field."
        "NO_IMAGE") ∧
    ("NO_IMAGE" : String) ≠ "INVALID_FORMAT" :=
  ⟨rfl, by decide⟩

/-- C5 applied at an absent image and at a truthy non-string image. -/
theorem C5_witness :
    solveRoute "hf_demo_key" none [] (.error "x") = (400, .errorBody
      "No image provided. Please send a base64-encoded image in the \"image\" field."
      "NO_IMAGE") ∧
    solveRoute "hf_demo_key" (some (.arr [])) [] (.error "x") =
      (400, .errorBody "Invalid image format. Expected a base64 string."
        "INVALID_FORMAT") := by
  have h := C5_no_image_and_invalid_format "hf_demo_key" (.arr []) [] (.error "x") (by decide)
  exact ⟨h.1, h.2.2 rfl (fun t ht => JValue.noConfusion ht)⟩

/-- C6: with a configured credential, an image string whose stripped
base64 payload has an estimated decoded size above 10 MiB (the integral
statement of `length * 3 / 4 > 10 * 1024 * 1024`) gets a 413 response
with code IMAGE_TOO_LARGE, for every orchestrator behaviour, i.e. without
the orchestrator being consulted. -/
theorem C6_image_too_large (key s : String) (attempts : List CallResult) (fc : CallResult)
    (hkey : ¬(key = "" ∨ key = "hf_your_key_here"))
    (hsize : MAX_IMAGE_SIZE_BYTES * 4 < (stripDataUriHeader s.data).length * 3) :
    (solveRoute key (some (.str s)) attempts fc).1 = 413 ∧
    respCode (solveRoute key (some (.str s)) attempts fc).2 = some "IMAGE_TOO_LARGE" := by
  have hs : s ≠ "" := by
    intro h0
    subst h0
    exact absurd hsize (by decide)
  have htr : jsTruthy (.str s) = true := by simp [jsTruthy, hs]
  have hval : validateSolve key (some (.str s)) = .reject 413 (.errorBody
      ("Image too large (" ++ toString ((stripDataUriHeader s.data).length * 3 / 4)
        ++ " bytes, formatting not modelled). Maximum is 10MB.") "IMAGE_TOO_LARGE") := by
    simp only [validateSolve, if_neg hkey, htr, Bool.not_true, Bool.false_eq_true,
      if_false, if_pos hsize]
  constructor
  · simp [solveRoute, hval]
  · simp [solveRoute, hval, respCode]

/-- C6 applied at a 14,000,000-character payload (estimated decoded size
10.5 MB, above the 10 MiB bound). -/
theorem C6_witness :
    (solveRoute "hf_demo_key" (some (.str oversizedImage)) [] (.error "x")).1 = 413 ∧
    respCode (solveRoute "hf_demo_key" (some (.str oversizedImage)) [] (.error "x")).2 =
      some "IMAGE_TOO_LARGE" := by
  have hsize : MAX_IMAGE_SIZE_BYTES * 4 < (stripDataUriHeader oversizedImage.data).length * 3 := by
    have h1 : oversizedImage.data = List.replicate 14000000 'A' := rfl
    have h3 : (14000000 : Nat) = 13999999 + 1 := by norm_num
    have h2 : stripDataUriHeader (List.replicate 14000000 'A') = List.replicate 14000000 'A' := by
      rw [h3, List.replicate_succ]
      rfl
    rw [h1, h2, List.length_replicate]
    norm_num [MAX_IMAGE_SIZE_BYTES]
  exact C6_image_too_large "hf_demo_key" oversizedImage [] (.error "x") (by decide) hsize

/-- C1 (amended: on `/solve-text` the body of a successful response is the
full four-field Solution except when the model returned empty content, in
which case `solveFromText` resolves nothing and the route sends JSON
`null`): every 200 response of `/solve` carries a full four-field
Solution object, and every 200 response of `/solve-text` carries either a
full four-field Solution object or — exactly when the model call returned
empty content — JSON `null`. -/
theorem C1_success_body_shape :
    (∀ (key : String) (image : Option JValue) (attempts : List CallResult) (fc : CallResult),
      (solveRoute key image attempts fc).1 = 200 →
      bodyIsFullSolution (solveRoute key image attempts fc).2 = true) ∧
    (∀ (key : String) (text : Option JValue) (call : CallResult),
      (solveTextRoute key text call).1 = 200 →
      bodyIsFullSolution (solveTextRoute key text call).2 = true ∨
        ((solveTextRoute key text call).2 = RespBody.nullBody ∧ call = .ok "")) := by
  constructor
  · intro key image attempts fc h200
    cases hval : validateSolve key image with
    | reject st b =>
      have hst := validateSolve_reject_status hval
      simp [solveRoute, hval] at h200
      rcases hst with h | h | h <;> omega
    | proceed p =>
      cases horch : solveFromImage attempts fc with
      | ok sol => simp [solveRoute, hval, horch, bodyIsFullSolution]
      | error m => simp [solveRoute, hval, horch] at h200
  · intro key text call h200
    cases hval : validateSolveText key text with
    | reject st b =>
      have hst := validateSolveText_reject_status hval
      simp [solveTextRoute, hval] at h200
      rcases hst with h | h <;> omega
    | proceed t =>
      cases call with
      | ok content =>
        by_cases hc : content = ""
        · subst hc
          right
          have hnone : parseResponse "" t = none := (parseResponse_none_iff "" t).mpr rfl
          simp [solveTextRoute, hval, solveFromText, textOnlySolve, hnone]
        · left
          obtain ⟨sol, hsol⟩ : ∃ sol, parseResponse content t = some sol := by
            cases hx : parseResponse content t with
            | none => exact absurd ((parseResponse_none_iff _ _).mp hx) hc
            | some s => exact ⟨s, rfl⟩
          simp [solveTextRoute, hval, solveFromText, textOnlySolve, hsol, bodyIsFullSolution]
      | error m => simp [solveTextRoute, hval, solveFromText, textOnlySolve] at h200

/-- C1 counterexample: `/solve-text` with a configured credential and a
valid text, where the model call succeeds with empty content, sends a 200
response whose JSON body is `null` — not a Solution, all four fields
absent. -/
theorem C1_counterexample_null_body :
    solveTextRoute "hf_demo_key" (some (.str "2+2")) (.ok "") = (200, RespBody.nullBody) ∧
    bodyIsFullSolution RespBody.nullBody = false :=
  ⟨rfl, rfl⟩

/-- C1 applied at a concrete 200 response of `/solve-text`. -/
theorem C1_witness :
    bodyIsFullSolution (solveTextRoute "hf_demo_key" (some (.str "2+2")) (.ok "")).2 = true ∨
      ((solveTextRoute "hf_demo_key" (some (.str "2+2")) (.ok "")).2 = RespBody.nullBody ∧
        (CallResult.ok "") = CallResult.ok "") :=
  C1_success_body_shape.2 "hf_demo_key" (some (.str "2+2")) (.ok "") rfl

/-- One save changes the length to `min (length + 1) 50` — stated with the
code's own condition. -/
theorem saveToHistory_length (sol : Solution) (d : String) (t : Nat) (h : List HistoryItem) :
    (saveToHistory sol d t h).length = if 50 < h.length + 1 then h.length else h.length + 1 := by
  unfold saveToHistory
  simp only [List.length_cons]
  split <;> simp [List.length_dropLast]

/-- The item just saved is always the head of the list afterwards. -/
theorem saveToHistory_head (sol : Solution) (d : String) (t : Nat) (h : List HistoryItem) :
    (saveToHistory sol d t h).head? = some ⟨sol, d, t⟩ := by
  simp only [saveToHistory]
  split
  · rename_i hgt
    cases h with
    | nil => simp at hgt
    | cons a as => rfl
  · rfl

/-- Folding saves from a list within the cap keeps the length at
`min (start + saves) 50`. -/
theorem saveAll_length : ∀ (items : List (Solution × String × Nat)) (h : List HistoryItem),
    h.length ≤ 50 → (saveAll items h).length = min (h.length + items.length) 50 := by
  intro items
  induction items with
  | nil => intro h hle; simp [saveAll]; omega
  | cons i is ih =>
    intro h hle
    have h1 : saveAll (i :: is) h = saveAll is (saveToHistory i.1 i.2.1 i.2.2 h) := rfl
    have h2 : (saveToHistory i.1 i.2.1 i.2.2 h).length ≤ 50 := by
      rw [saveToHistory_length]; split <;> omega
    rw [h1, ih _ h2, saveToHistory_length]
    split <;> (simp only [List.length_cons]; omega)

/-- After a nonempty run of saves, the head is the last item saved. -/
theorem saveAll_head : ∀ (items : List (Solution × String × Nat)) (h : List HistoryItem),
    items ≠ [] → (saveAll items h).head? = (items.getLast?).map mkHistoryItem := by
  intro items
  induction items with
  | nil => intro h hne; cases hne rfl
  | cons i is ih =>
    intro h hne
    cases is with
    | nil =>
      show (saveToHistory i.1 i.2.1 i.2.2 h).head? = _
      rw [saveToHistory_head]
      rfl
    | cons j js =>
      have h1 : saveAll (i :: j :: js) h = saveAll (j :: js) (saveToHistory i.1 i.2.1 i.2.2 h) := rfl
      rw [h1, ih _ (by simp), List.getLast?_cons_cons]

/-- C9: starting from an empty history, after saving 51 solutions the
persisted list has exactly 50 entries and the most recently saved
solution (as a history item) is first. -/
theorem C9_fifty_one_saves (items : List (Solution × String × Nat))
    (h51 : items.length = 51) :
    (saveAll items []).length = 50 ∧
    (saveAll items []).head? = (items.getLast?).map mkHistoryItem := by
  constructor
  · rw [saveAll_length items [] (by simp), h51]
    omega
  · exact saveAll_head items [] (by intro h0; rw [h0] at h51; simp at h51)

/-- C9 applied at a concrete run of 51 saves. -/
theorem C9_witness :
    (saveAll (List.replicate 51 (sampleSolution, "2026-01-01", 1700000000)) []).length = 50 ∧
    (saveAll (List.replicate 51 (sampleSolution, "2026-01-01", 1700000000)) []).head? =
      ((List.replicate 51 (sampleSolution, "2026-01-01", 1700000000)).getLast?).map
        mkHistoryItem :=
  C9_fifty_one_saves _ (by simp)

/-- C10: one save evicts at most one entry — the length after a save is
`priorLength + 1`, less one exactly when that exceeds 50 — so the 50-cap
is preserved from states within the cap, while from a state already over
the cap a single save leaves the list still over the cap. -/
theorem C10_single_eviction (sol : Solution) (d : String) (t : Nat) (h : List HistoryItem) :
    (saveToHistory sol d t h).length =
      (if 50 < h.length + 1 then h.length else h.length + 1) ∧
    (h.length ≤ 50 → (saveToHistory sol d t h).length ≤ 50) ∧
    (50 < h.length → 50 < (saveToHistory sol d t h).length) := by
  refine ⟨saveToHistory_length sol d t h, fun hle => ?_, fun hgt => ?_⟩ <;>
    rw [saveToHistory_length] <;> split <;> omega

/-- C10 applied at an over-cap 51-entry history: a save leaves it over
the cap. -/
theorem C10_witness :
    50 < (saveToHistory sampleSolution "2026-01-01" 1700000000
      (List.replicate 51 (mkHistoryItem (sampleSolution, "d", 0)))).length :=
  (C10_single_eviction sampleSolution "2026-01-01" 1700000000
    (List.replicate 51 (mkHistoryItem (sampleSolution, "d", 0)))).2.2 (by simp)
